import Mathlib

/-!
Shallow embedding of the transaction-signing core of the sui-gas-pool
repository (src/tx_signer.rs) and of the metrics invariant-violation
path (src/metrics.rs), together with theorems settling the spec claims.

Machine bytes are modelled as `Nat` values below 256 inside `List Nat`;
the cryptographic primitives from the external `sui_types` crate
(signature layout, key-to-address derivation, raw signing) are modelled
symbolically from the spec, since their code is not part of this
repository.
-/

/-- A Sui address: a fixed-size byte string identifying a signing identity. -/
structure SuiAddress where
  bytes : List Nat
deriving DecidableEq, Repr

/-- Modelled from the spec: the signature schemes recognised by
`Signature::from_bytes` in the external crypto crate (scheme tag plus
scheme-dependent signature/public-key lengths). -/
inductive SigScheme where
  | ed25519
  | secp256k1
  | secp256r1
deriving DecidableEq, Repr

/-- The one-byte scheme tag that leads the flat signature encoding. -/
def SigScheme.flag : SigScheme → Nat
  | .ed25519 => 0
  | .secp256k1 => 1
  | .secp256r1 => 2

/-- Length in bytes of the raw signature component for each scheme. -/
def SigScheme.sigLength : SigScheme → Nat
  | .ed25519 => 64
  | .secp256k1 => 64
  | .secp256r1 => 64

/-- Length in bytes of the public-key component for each scheme. -/
def SigScheme.pkLength : SigScheme → Nat
  | .ed25519 => 32
  | .secp256k1 => 33
  | .secp256r1 => 33

/-- Recover a scheme from its tag byte; unknown tags are rejected. -/
def SigScheme.ofFlag : Nat → Option SigScheme
  | 0 => some .ed25519
  | 1 => some .secp256k1
  | 2 => some .secp256r1
  | _ => none

/-- A public key: a scheme together with its raw key bytes. -/
structure PublicKey where
  scheme : SigScheme
  bytes : List Nat
deriving DecidableEq, Repr

/-- Modelled from the spec: a key pair as held by the local signing
backend (`SuiKeyPair`); only the public half is observable, the secret
half is abstracted into the symbolic signing function. -/
structure SuiKeyPair where
  pub : PublicKey
deriving DecidableEq, Repr

/-- Modelled from the spec: the SignatureValue of the external crypto
crate — scheme identifier, raw signature bytes and public-key bytes. -/
structure Signature where
  scheme : SigScheme
  sigBytes : List Nat
  pkBytes : List Nat
deriving DecidableEq, Repr

/-- Flat byte encoding of a signature: scheme tag, then signature bytes,
then public-key bytes. -/
def Signature.toBytes (s : Signature) : List Nat :=
  s.scheme.flag :: (s.sigBytes ++ s.pkBytes)

/-- The typed failures of the signing core (spec section 7). -/
inductive SigningError where
  | serializationError
  | networkError
  | invalidSignatureEncoding
  | authorizationMismatch
deriving DecidableEq, Repr

/-- Modelled from the spec: `Signature::from_bytes` parses the flat
encoding, rejecting an unknown scheme tag or a wrong total length with
`InvalidSignatureEncoding`. -/
def Signature.fromBytes : List Nat → Except SigningError Signature
  | [] => .error .invalidSignatureEncoding
  | f :: rest =>
    match SigScheme.ofFlag f with
    | none => .error .invalidSignatureEncoding
    | some sch =>
      if rest.length = sch.sigLength + sch.pkLength then
        .ok ⟨sch, rest.take sch.sigLength, rest.drop sch.sigLength⟩
      else .error .invalidSignatureEncoding

/-- Modelled from the spec: canonical derivation of a Sui address from a
public key (deterministic, injective — the idealisation of the
collision-resistant hash of scheme tag and key bytes). -/
def addressOfPublicKey (pk : PublicKey) : SuiAddress :=
  ⟨pk.scheme.flag :: pk.bytes⟩

/-- Modelled from the spec: the raw signature bytes the scheme produces
for a given key over a given message — a deterministic symbolic stand-in
of the correct length for each scheme. -/
def mkSigBytes (pk : PublicKey) (msg : List Nat) : List Nat :=
  List.replicate pk.scheme.sigLength ((pk.bytes.sum + msg.sum + msg.length) % 256)

/-- Modelled from the spec: signing a message with a key pair yields a
SignatureValue carrying the scheme, the raw signature and the public key. -/
def signWithKeyPair (kp : SuiKeyPair) (msg : List Nat) : Signature :=
  ⟨kp.pub.scheme, mkSigBytes kp.pub msg, kp.pub.bytes⟩

/-- Modelled from the spec: a verifier accepts a signature against a
message and an address exactly when the embedded public key reproduces
the raw signature on that message and derives that address. -/
def verifySignature (sig : Signature) (msg : List Nat) (addr : SuiAddress) : Bool :=
  (sig.sigBytes == mkSigBytes ⟨sig.scheme, sig.pkBytes⟩ msg)
    && (addressOfPublicKey ⟨sig.scheme, sig.pkBytes⟩ == addr)

/-- The opaque transaction payload, represented by its serialized bytes. -/
structure TransactionData where
  bytes : List Nat
deriving DecidableEq, Repr

/-- The intent of an intent envelope: scope, version and application tags. -/
structure Intent where
  scope : Nat
  version : Nat
  appId : Nat
deriving DecidableEq, Repr

/-- The fixed sui-transaction intent used by both backends. -/
def Intent.suiTransaction : Intent := ⟨0, 0, 0⟩

/-- An intent message: an intent tag wrapped around a payload. -/
structure IntentMessage where
  intent : Intent
  value : TransactionData
deriving DecidableEq, Repr

/-- Constructor mirroring `IntentMessage::new(intent, value)`. -/
def IntentMessage.new (intent : Intent) (value : TransactionData) : IntentMessage :=
  ⟨intent, value⟩

/-- Canonical BCS encoding of an intent message: the three intent bytes
followed by the payload's serialized bytes. -/
def bcsToBytes (m : IntentMessage) : List Nat :=
  m.intent.scope :: m.intent.version :: m.intent.appId :: m.value.bytes

/-- Ambient state a run could observe (time, randomness); the encoding
pipeline is embedded as a function of it to state determinism. -/
structure World where
  time : Nat
  rngSeed : Nat

/-- The wrap-then-encode pipeline run under an ambient world: the source
(`IntentMessage::new` then `bcs::to_bytes`, tx_signer.rs lines 40-41)
touches no ambient state, so the embedding ignores the world. -/
def encodeIntentEnvelopeIn (_w : World) (tx : TransactionData) : List Nat :=
  bcsToBytes (IntentMessage.new Intent.suiTransaction tx)

/-- The remote signing backend: a configured sponsor address and sidecar
URL (the HTTP client handle carries no observable state). -/
structure SidecarTxSigner where
  sponsor_address : SuiAddress
  sidecar_url : String
deriving DecidableEq, Repr

/-- Constructor mirroring `SidecarTxSigner::new`. -/
def SidecarTxSigner.new (sponsor_address : SuiAddress) (sidecar_url : String) :
    SidecarTxSigner :=
  ⟨sponsor_address, sidecar_url⟩

/-- Accessor mirroring `SidecarTxSigner::get_address` (tx_signer.rs 54-56). -/
def SidecarTxSigner.get_address (s : SidecarTxSigner) : SuiAddress :=
  s.sponsor_address

/-- The intent envelope the sidecar backend builds for a payload
(tx_signer.rs line 40). -/
def SidecarTxSigner.intentEnvelope (tx : TransactionData) : IntentMessage :=
  IntentMessage.new Intent.suiTransaction tx

/-- The encoded signing input the sidecar backend serializes and ships
(tx_signer.rs line 41). -/
def SidecarTxSigner.signingInput (tx : TransactionData) : List Nat :=
  bcsToBytes (SidecarTxSigner.intentEnvelope tx)

/-- An HTTP request as observed on the wire by the sidecar endpoint:
target URL, content type, and a one-field JSON body of byte values. -/
structure HttpRequest where
  url : String
  contentType : String
  bodyField : String
  bodyBytes : List Nat
deriving DecidableEq, Repr

/-- The environment of one sign call: the sidecar endpoint's reply to a
request body, already decoded as a byte array, or a typed failure of the
exchange (unreachable endpoint, non-success status, unparseable body). -/
def SidecarOracle : Type :=
  List Nat → Except SigningError (List Nat)

/-- One run of `SidecarTxSigner::sign_transaction` (tx_signer.rs 39-52),
instrumented with the list of HTTP requests issued: build the envelope,
serialize it, post it once as JSON field `txBytes`, then parse the reply
bytes with `Signature::from_bytes`; each failure propagates as-is. -/
def SidecarTxSigner.signRun (oracle : SidecarOracle) (s : SidecarTxSigner)
    (tx_data : TransactionData) : List HttpRequest × Except SigningError Signature :=
  let bytes := SidecarTxSigner.signingInput tx_data
  let req : HttpRequest :=
    ⟨s.sidecar_url, "application/json", "txBytes", bytes⟩
  match oracle bytes with
  | .error e => ([req], .error e)
  | .ok sig_bytes =>
    match Signature.fromBytes sig_bytes with
    | .error e => ([req], .error e)
    | .ok sig => ([req], .ok sig)

/-- The result of `SidecarTxSigner::sign_transaction`: the value or typed
failure of the instrumented run. -/
def SidecarTxSigner.sign_transaction (oracle : SidecarOracle) (s : SidecarTxSigner)
    (tx_data : TransactionData) : Except SigningError Signature :=
  (SidecarTxSigner.signRun oracle s tx_data).2

/-- An honest sidecar endpoint backed by key pair `kp`: it signs exactly
the received bytes and replies with the flat signature encoding. -/
def honestOracle (kp : SuiKeyPair) : SidecarOracle :=
  fun req => .ok ((signWithKeyPair kp req).toBytes)

/-- The local signing backend: an in-memory key pair (tx_signer.rs 59-61). -/
structure TestTxSigner where
  keypair : SuiKeyPair
deriving DecidableEq, Repr

/-- Constructor mirroring `TestTxSigner::new`. -/
def TestTxSigner.new (keypair : SuiKeyPair) : TestTxSigner :=
  ⟨keypair⟩

/-- The intent envelope the local backend builds for a payload
(tx_signer.rs line 72). -/
def TestTxSigner.intentEnvelope (tx : TransactionData) : IntentMessage :=
  IntentMessage.new Intent.suiTransaction tx

/-- The encoded signing input of the local backend: `Signature::new_secure`
serializes the same intent message with the same codec (modelled from the
spec, section 4.5). -/
def TestTxSigner.signingInput (tx : TransactionData) : List Nat :=
  bcsToBytes (TestTxSigner.intentEnvelope tx)

/-- Modelled from the spec: `Signature::new_secure(intent_msg, keypair)`
signs the canonical encoding of the intent message with the held key. -/
def Signature.new_secure (m : IntentMessage) (kp : SuiKeyPair) : Signature :=
  signWithKeyPair kp (bcsToBytes m)

/-- Embedding of `TestTxSigner::sign_transaction` (tx_signer.rs 71-75). -/
def TestTxSigner.sign_transaction (t : TestTxSigner) (tx_data : TransactionData) :
    Except SigningError Signature :=
  let intent_msg := TestTxSigner.intentEnvelope tx_data
  .ok (Signature.new_secure intent_msg t.keypair)

/-- Accessor mirroring `TestTxSigner::get_address` (tx_signer.rs 77-79):
the address derived from the key pair's public key. -/
def TestTxSigner.get_address (t : TestTxSigner) : SuiAddress :=
  addressOfPublicKey t.keypair.pub

/-- A value of the `TxSigner` trait: one of the two backends. -/
inductive Backend where
  | sidecar (s : SidecarTxSigner)
  | test (t : TestTxSigner)

/-- Trait dispatch of `get_address`. -/
def Backend.get_address : Backend → SuiAddress
  | .sidecar s => s.get_address
  | .test t => t.get_address

/-- The trait's default `is_valid_address` (tx_signer.rs 16-18):
equality of `get_address()` against the candidate. -/
def Backend.is_valid_address (b : Backend) (address : SuiAddress) : Bool :=
  b.get_address == address

/-- Observable state of the gas-pool metrics collaborator: the error log
and the monotonic invariant-violation counter. -/
structure GasPoolMetricsState where
  log : List String
  num_gas_pool_invariant_violations : Nat
deriving DecidableEq, Repr

/-- Outcome of a metrics call: either the process halted with a message
(the state as it was at the halt), or it completed in a new state. -/
inductive MetricsOutcome where
  | halted (msg : String) (s : GasPoolMetricsState)
  | done (s : GasPoolMetricsState)
deriving DecidableEq, Repr

/-- Embedding of `GasPoolMetrics::invariant_violation` (metrics.rs
176-183): with `debug_assertions` the process halts at once; otherwise
the message is logged; the counter increment that follows the branch
runs only when the branch did not halt. -/
def GasPoolMetrics.invariant_violation (debug_assertions : Bool) (msg : String)
    (s : GasPoolMetricsState) : MetricsOutcome :=
  let branch :=
    if debug_assertions then
      MetricsOutcome.halted ("Invariant violation: " ++ msg) s
    else
      MetricsOutcome.done { s with log := ("Invariant violation: " ++ msg) :: s.log }
  match branch with
  | .halted m s' => .halted m s'
  | .done s' =>
    .done { s' with
      num_gas_pool_invariant_violations := s'.num_gas_pool_invariant_violations + 1 }

/-- A concrete ed25519 key pair used to instantiate theorems. -/
def kpW : SuiKeyPair := ⟨⟨.ed25519, List.replicate 32 7⟩⟩

/-- A concrete transaction payload used to instantiate theorems. -/
def txW : TransactionData := ⟨[1, 2, 3]⟩

/-- A concrete local backend over `kpW`. -/
def tW : TestTxSigner := TestTxSigner.new kpW

/-- A concrete remote backend whose sponsor address matches `kpW`. -/
def sW : SidecarTxSigner :=
  SidecarTxSigner.new (addressOfPublicKey kpW.pub) "http://localhost:3000/sign"

/-- The signature the local backend produces over `txW`. -/
def sigTW : Signature := signWithKeyPair kpW (TestTxSigner.signingInput txW)

/-- The signature an honest sidecar backed by `kpW` produces over `txW`. -/
def sigSW : Signature := signWithKeyPair kpW (SidecarTxSigner.signingInput txW)

/-- A concrete well-formed secp256k1 signature value. -/
def vW : Signature := ⟨.secp256k1, List.replicate 64 5, List.replicate 33 9⟩

/-- A sidecar endpoint that replies with bytes of an unknown scheme tag. -/
def badTagOracle : SidecarOracle := fun _ => .ok [99]

/-- A sidecar endpoint whose exchange fails with a network error. -/
def downOracle : SidecarOracle := fun _ => .error .networkError

/-- A concrete metrics state used to instantiate theorems. -/
def mW : GasPoolMetricsState := ⟨[], 0⟩

/-- The metrics state after a release-build invariant violation on `mW`. -/
def mW' : GasPoolMetricsState := ⟨["Invariant violation: " ++ "boom"], 1⟩

theorem fromBytes_toBytes (v : Signature)
    (h1 : v.sigBytes.length = v.scheme.sigLength)
    (h2 : v.pkBytes.length = v.scheme.pkLength) :
    Signature.fromBytes v.toBytes = .ok v := by
  obtain ⟨sch, sb, pb⟩ := v
  simp only at h1 h2
  have hflag : SigScheme.ofFlag sch.flag = some sch := by cases sch <;> rfl
  have hlen : (sb ++ pb).length = sch.sigLength + sch.pkLength := by
    simp [h1, h2]
  simp only [Signature.toBytes, Signature.fromBytes, hflag, hlen, if_true]
  rw [← h1, List.take_left, List.drop_left]

theorem verify_signWithKeyPair (kp : SuiKeyPair) (msg : List Nat) (a : SuiAddress) :
    verifySignature (signWithKeyPair kp msg) msg a = true ↔ a = addressOfPublicKey kp.pub := by
  have hpk : (⟨kp.pub.scheme, kp.pub.bytes⟩ : PublicKey) = kp.pub := rfl
  simp only [verifySignature, signWithKeyPair, hpk, beq_self_eq_true, Bool.true_and,
    Bool.and_eq_true, beq_iff_eq, true_and]
  exact eq_comm

theorem signWithKeyPair_sigLength (kp : SuiKeyPair) (msg : List Nat) :
    (signWithKeyPair kp msg).sigBytes.length = (signWithKeyPair kp msg).scheme.sigLength := by
  simp [signWithKeyPair, mkSigBytes]

theorem sidecar_sign_honest (kp : SuiKeyPair) (s : SidecarTxSigner)
    (tx : TransactionData) (hlen : kp.pub.bytes.length = kp.pub.scheme.pkLength) :
    SidecarTxSigner.sign_transaction (honestOracle kp) s tx
      = .ok (signWithKeyPair kp (SidecarTxSigner.signingInput tx)) := by
  have hrt := fromBytes_toBytes (signWithKeyPair kp (SidecarTxSigner.signingInput tx))
    (signWithKeyPair_sigLength kp (SidecarTxSigner.signingInput tx)) hlen
  simp [SidecarTxSigner.sign_transaction, SidecarTxSigner.signRun, honestOracle, hrt]

/-- C1: for both backends, a signature returned by `sign_transaction`
verifies exactly against `get_address()`; for the remote backend this
holds whenever the sidecar endpoint signs with a well-formed key pair
whose derived address is the configured sponsor address. -/
theorem sign_verifies_only_against_get_address :
    (∀ (t : TestTxSigner) (tx : TransactionData) (sig : Signature),
      t.sign_transaction tx = .ok sig →
      ∀ a : SuiAddress,
        (verifySignature sig (TestTxSigner.signingInput tx) a = true ↔ a = t.get_address))
    ∧
    (∀ (kp : SuiKeyPair) (s : SidecarTxSigner) (tx : TransactionData) (sig : Signature),
      kp.pub.bytes.length = kp.pub.scheme.pkLength →
      addressOfPublicKey kp.pub = s.get_address →
      SidecarTxSigner.sign_transaction (honestOracle kp) s tx = .ok sig →
      ∀ a : SuiAddress,
        (verifySignature sig (SidecarTxSigner.signingInput tx) a = true ↔
          a = s.get_address)) := by
  constructor
  · intro t tx sig hsig a
    simp only [TestTxSigner.sign_transaction, Except.ok.injEq] at hsig
    subst hsig
    exact verify_signWithKeyPair t.keypair (TestTxSigner.signingInput tx) a
  · intro kp s tx sig hlen haddr hsig a
    rw [sidecar_sign_honest kp s tx hlen] at hsig
    simp only [Except.ok.injEq] at hsig
    subst hsig
    rw [← haddr]
    exact verify_signWithKeyPair kp (SidecarTxSigner.signingInput tx) a

/-- Witness for C1 at the concrete key pair `kpW` and payload `txW`. -/
theorem sign_verifies_only_against_get_address_witness :
    verifySignature sigTW (TestTxSigner.signingInput txW) tW.get_address = true
    ∧ verifySignature sigSW (SidecarTxSigner.signingInput txW) sW.get_address = true :=
  ⟨(sign_verifies_only_against_get_address.1 tW txW sigTW rfl tW.get_address).mpr rfl,
   (sign_verifies_only_against_get_address.2 kpW sW txW sigSW rfl rfl rfl
      sW.get_address).mpr rfl⟩

/-- C2: the trait's default `is_valid_address` accepts a candidate
address exactly when it equals `get_address()`, for both backends. -/
theorem is_valid_address_iff_eq_get_address (b : Backend) (a : SuiAddress) :
    b.is_valid_address a = true ↔ a = b.get_address := by
  simp only [Backend.is_valid_address, beq_iff_eq]
  exact eq_comm

/-- C3: the flat byte encoding of a signature value round-trips through
`Signature::from_bytes` whenever the component lengths conform to the
scheme, as they do for every signature a conforming backend produces. -/
theorem from_bytes_to_bytes_roundtrip (v : Signature)
    (h1 : v.sigBytes.length = v.scheme.sigLength)
    (h2 : v.pkBytes.length = v.scheme.pkLength) :
    Signature.fromBytes v.toBytes = .ok v :=
  fromBytes_toBytes v h1 h2

/-- Witness for C3 at the concrete signature value `vW`. -/
theorem from_bytes_to_bytes_roundtrip_witness :
    vW.sigBytes.length = vW.scheme.sigLength
    ∧ vW.pkBytes.length = vW.scheme.pkLength
    ∧ Signature.fromBytes vW.toBytes = .ok vW :=
  ⟨rfl, rfl, from_bytes_to_bytes_roundtrip vW rfl rfl⟩

/-- C4: wrapping and encoding a payload is deterministic — two runs under
arbitrary ambient worlds (time, randomness) produce identical bytes. -/
theorem encode_intent_envelope_deterministic (w₁ w₂ : World) (tx : TransactionData) :
    encodeIntentEnvelopeIn w₁ tx = encodeIntentEnvelopeIn w₂ tx :=
  rfl

/-- C5: the two backends build the same intent envelope and the same
encoded signing input for every payload (shared intent codec). -/
theorem backends_share_intent_codec (tx : TransactionData) :
    SidecarTxSigner.intentEnvelope tx = TestTxSigner.intentEnvelope tx
    ∧ SidecarTxSigner.signingInput tx = TestTxSigner.signingInput tx :=
  ⟨rfl, rfl⟩

/-- C6: a sidecar reply that does not parse as a known signature makes
`sign_transaction` return `InvalidSignatureEncoding` with no signature
produced, and every failure of any step propagates unchanged to the
caller. -/
theorem sidecar_sign_error_propagation :
    (∀ (oracle : SidecarOracle) (s : SidecarTxSigner) (tx : TransactionData)
        (r : List Nat),
      oracle (SidecarTxSigner.signingInput tx) = .ok r →
      Signature.fromBytes r = .error .invalidSignatureEncoding →
      SidecarTxSigner.sign_transaction oracle s tx = .error .invalidSignatureEncoding
        ∧ ∀ sig, SidecarTxSigner.sign_transaction oracle s tx ≠ .ok sig)
    ∧
    (∀ (oracle : SidecarOracle) (s : SidecarTxSigner) (tx : TransactionData)
        (e : SigningError),
      oracle (SidecarTxSigner.signingInput tx) = .error e →
      SidecarTxSigner.sign_transaction oracle s tx = .error e)
    ∧
    (∀ (oracle : SidecarOracle) (s : SidecarTxSigner) (tx : TransactionData)
        (r : List Nat) (e : SigningError),
      oracle (SidecarTxSigner.signingInput tx) = .ok r →
      Signature.fromBytes r = .error e →
      SidecarTxSigner.sign_transaction oracle s tx = .error e) := by
  refine ⟨?_, ?_, ?_⟩
  · intro oracle s tx r hresp hparse
    have h : SidecarTxSigner.sign_transaction oracle s tx
        = .error .invalidSignatureEncoding := by
      simp [SidecarTxSigner.sign_transaction, SidecarTxSigner.signRun, hresp, hparse]
    exact ⟨h, fun sig hok => by rw [h] at hok; exact Except.noConfusion hok⟩
  · intro oracle s tx e hresp
    simp [SidecarTxSigner.sign_transaction, SidecarTxSigner.signRun, hresp]
  · intro oracle s tx r e hresp hparse
    simp [SidecarTxSigner.sign_transaction, SidecarTxSigner.signRun, hresp, hparse]

/-- Witness for C6 at a bad-tag endpoint and an unreachable endpoint. -/
theorem sidecar_sign_error_propagation_witness :
    SidecarTxSigner.sign_transaction badTagOracle sW txW
      = .error .invalidSignatureEncoding
    ∧ SidecarTxSigner.sign_transaction downOracle sW txW = .error .networkError :=
  ⟨(sidecar_sign_error_propagation.1 badTagOracle sW txW [99] rfl rfl).1,
   sidecar_sign_error_propagation.2.1 downOracle sW txW .networkError rfl⟩

/-- C7: every call of the remote backend's sign issues exactly one HTTP
request — to the configured URL, with content type application/json, and
a one-field JSON body named txBytes carrying the encoded envelope bytes —
regardless of how the endpoint replies. -/
theorem sidecar_sign_single_json_request (oracle : SidecarOracle)
    (s : SidecarTxSigner) (tx : TransactionData) :
    (SidecarTxSigner.signRun oracle s tx).1 =
      [⟨s.sidecar_url, "application/json", "txBytes",
        SidecarTxSigner.signingInput tx⟩] := by
  rcases hresp : oracle (SidecarTxSigner.signingInput tx) with e | sb
  · simp [SidecarTxSigner.signRun, hresp]
  · rcases hparse : Signature.fromBytes sb with e | sig <;>
      simp [SidecarTxSigner.signRun, hresp, hparse]

/-- C8: the local backend's address is derived from the key pair it was
constructed from; the remote backend's address is exactly the sponsor
address supplied at construction. -/
theorem get_address_from_construction :
    (∀ kp : SuiKeyPair, (TestTxSigner.new kp).get_address = addressOfPublicKey kp.pub)
    ∧ (∀ (sponsor : SuiAddress) (url : String),
        (SidecarTxSigner.new sponsor url).get_address = sponsor) :=
  ⟨fun _ => rfl, fun _ _ => rfl⟩

/-- C9: with debug assertions, `invariant_violation` halts the process at
once with the message; in a release build it logs the message and
increments the invariant-violation counter by exactly one. -/
theorem invariant_violation_build_contract (msg : String) (s : GasPoolMetricsState) :
    GasPoolMetrics.invariant_violation true msg s
      = .halted ("Invariant violation: " ++ msg) s
    ∧ GasPoolMetrics.invariant_violation false msg s
      = .done ⟨("Invariant violation: " ++ msg) :: s.log,
          s.num_gas_pool_invariant_violations + 1⟩ :=
  ⟨rfl, rfl⟩

/-- C10: on the debug path `invariant_violation` halts before the counter
increment, so the counter is unchanged there; a completed call implies a
release build and a counter incremented by exactly one. -/
theorem invariant_violation_increment_only_in_release :
    (∀ (msg : String) (s : GasPoolMetricsState) (m : String)
        (s' : GasPoolMetricsState),
      GasPoolMetrics.invariant_violation true msg s = .halted m s' →
      s'.num_gas_pool_invariant_violations = s.num_gas_pool_invariant_violations)
    ∧
    (∀ (d : Bool) (msg : String) (s s' : GasPoolMetricsState),
      GasPoolMetrics.invariant_violation d msg s = .done s' →
      d = false ∧ s'.num_gas_pool_invariant_violations
          = s.num_gas_pool_invariant_violations + 1) := by
  constructor
  · intro msg s m s' h
    have hred : GasPoolMetrics.invariant_violation true msg s
        = .halted ("Invariant violation: " ++ msg) s := rfl
    rw [hred] at h
    injection h with h1 h2
    rw [h2]
  · intro d msg s s' h
    cases d
    · have hred : GasPoolMetrics.invariant_violation false msg s
          = .done ⟨("Invariant violation: " ++ msg) :: s.log,
              s.num_gas_pool_invariant_violations + 1⟩ := rfl
      rw [hred] at h
      injection h with h1
      subst h1
      exact ⟨rfl, rfl⟩
    · have hred : GasPoolMetrics.invariant_violation true msg s
          = .halted ("Invariant violation: " ++ msg) s := rfl
      rw [hred] at h
      exact MetricsOutcome.noConfusion h

/-- Witness for C10 at the concrete state `mW` and message boom. -/
theorem invariant_violation_increment_only_in_release_witness :
    mW.num_gas_pool_invariant_violations = mW.num_gas_pool_invariant_violations
    ∧ (false = false ∧ mW'.num_gas_pool_invariant_violations
        = mW.num_gas_pool_invariant_violations + 1) :=
  ⟨invariant_violation_increment_only_in_release.1 "boom" mW
      ("Invariant violation: " ++ "boom") mW rfl,
   invariant_violation_increment_only_in_release.2 false "boom" mW mW' rfl⟩
